import Mathlib

/-!
Shallow embedding of the `dataframe` Go package (akualab/dataframe),
`dataframe.go` (the later, VectorSpec-based revision).

Modelling conventions:
  * Go `float64` payloads are modelled as `ℚ`.  The code never performs
    arithmetic on cell values (it only moves them around), so any faithful
    injection of the value space works, and `ℚ` keeps everything decidable.
  * A Go cell (`interface{}` produced by `encoding/json`) is the tagged
    union `Cell`: JSON null, number, string, bool, or array of values.
  * Go functions that return `(T, error)` become `Except DFError T`.
    A Go runtime panic (out-of-range index, failed type assertion) is a
    distinct outcome from a returned error; it is modelled by the
    dedicated constructor `DFError.goPanic`.
  * A Go slice field that the code compares against `nil` is modelled as
    `Option (List _)`: `none` is the nil slice, `some []` the empty
    non-nil slice.  This matters for `VectorSpec.VarNames`.
  * The `varMap` field built by `ReadDataFrame` is recomputed from
    `VarNames` at use sites (`buildVarMap`); this models a frame obtained
    from `ReadDataFrame`, which is the only constructor in the package.
-/

/-- A JSON-decoded Go `interface{}` cell value. -/
inductive Cell where
  | null : Cell
  | num (x : ℚ) : Cell
  | str (s : String) : Cell
  | boolean (b : Bool) : Cell
  | arr (xs : List Cell) : Cell

/-- The name `reflect.TypeOf(v).String()` produces for a cell's dynamic
type (only the shapes reaching the `default` branch matter for errors). -/
def Cell.goTypeName : Cell → String
  | .null => "nil"
  | .num _ => "float64"
  | .str _ => "string"
  | .boolean _ => "bool"
  | .arr _ => "[]interface"

/-- Error outcomes of the package's fallible operations.  `goPanic` is not
a returned error: it marks a Go runtime panic (crash). -/
inductive DFError where
  | emptyVarNames : DFError
  | unknownColumn (name : String) : DFError
  | invalidVectorSpec : DFError
  | nullVariable (idx : Nat) : DFError
  | unsupportedType (frame : Nat) (tyName : String) : DFError
  | goPanic (msg : String) : DFError
deriving DecidableEq, Repr

/-- Go struct `VectorSpec`.  `VarNames` is `Option` because the code
distinguishes a nil slice from an empty one. -/
structure VectorSpec where
  Type' : String
  VarNames : Option (List String)
deriving DecidableEq, Repr

/-- Go struct `DataFrame` (the decoded JSON document). -/
structure DataFrame where
  Description : String
  BatchID : String
  VarNames : List String
  VarTypes : List String
  Data : List (List Cell)
  Properties : List (String × String)

/-- `elemType`: Go `strings.LastIndex(t, "]") + 1` then the suffix from
there, i.e. the characters after the last `]` (the whole string when no
`]` occurs). -/
def elemType (t : String) : String :=
  String.mk (t.data.foldl (fun acc c => if c = ']' then [] else acc.concat c) [])

/-- The `varMap` built in `ReadDataFrame`:
`for k, v := range df.VarNames { m[v] = k }` — iteration over a slice is
in increasing index order, and a map store overwrites (last wins).
`k` is the running index. -/
def buildVarMapGo : List String → Nat → (String → Option Nat) → (String → Option Nat)
  | [], _, m => m
  | v :: rest, k, m => buildVarMapGo rest (k + 1) (fun s => if s = v then some k else m s)

def buildVarMap (names : List String) : String → Option Nat :=
  buildVarMapGo names 0 (fun _ => none)

/-- The loop body of `DataFrame.indices`: walks `VarNames` of the spec,
resolves each through the var map, reads `VarTypes[idx]` (a panic when out
of range), enforces the running element-type check, and accumulates the
resolved positions in order. -/
def indicesGo (vm : String → Option Nat) (types : List String) :
    List String → String → Except DFError (List Nat)
  | [], _ => .ok []
  | v :: rest, lastType =>
    match vm v with
    | none => .error (.unknownColumn v)
    | some idx =>
      match types[idx]? with
      | none => .error (.goPanic "runtime error: index out of range")
      | some t =>
        if lastType.length > 0 ∧ lastType ≠ elemType t then
          .error .invalidVectorSpec
        else
          (indicesGo vm types rest (elemType t)).map (idx :: ·)

/-- `DataFrame.indices`.  A nil `VarNames` never reaches this function in
the Go code; ranging over a nil slice does nothing, hence `getD []`. -/
def DataFrame.indices (df : DataFrame) (vector : VectorSpec) : Except DFError (List Nat) :=
  indicesGo (buildVarMap df.VarNames) df.VarTypes (vector.VarNames.getD []) ""

/-- The `[]interface{}` branch of the type switch: each element passes the
type assertion `v.(float64)`, which panics on a non-number element. -/
def arrFloats : List Cell → Except DFError (List ℚ)
  | [] => .ok []
  | .num x :: rest => (arrFloats rest).map (x :: ·)
  | _ :: _ => .error (.goPanic "interface conversion: interface is not float64")

/-- One iteration of the extraction loop: the type switch on
`df.Data[frame][v]`. -/
def cellFloats (frame : Nat) (v : Nat) : Cell → Except DFError (List ℚ)
  | .null => .error (.nullVariable v)
  | .num x => .ok [x]
  | .arr xs => arrFloats xs
  | c => .error (.unsupportedType frame c.goTypeName)

/-- The extraction loop of `GetFrameFloat64` over the resolved positions;
`df.Data[frame]` and `row[v]` panic when out of range. -/
def processIndices (df : DataFrame) (frame : Nat) : List Nat → Except DFError (List ℚ)
  | [] => .ok []
  | v :: rest =>
    match df.Data[frame]? with
    | none => .error (.goPanic "runtime error: index out of range")
    | some row =>
      match row[v]? with
      | none => .error (.goPanic "runtime error: index out of range")
      | some cell =>
        match cellFloats frame v cell with
        | .error e => .error e
        | .ok fs => (processIndices df frame rest).map (fs ++ ·)

/-- `DataFrame.GetFrameFloat64`: nil `VarNames` is rejected, then the
positions are resolved and each cell's contribution appended in spec
order.  (The nil-receiver check on the spec pointer is not modelled: the
spec is passed by value here.) -/
def DataFrame.GetFrameFloat64 (df : DataFrame) (frame : Nat) (vector : VectorSpec) :
    Except DFError (List ℚ) :=
  match vector.VarNames with
  | none => .error .emptyVarNames
  | some _ =>
    match df.indices vector with
    | .error e => .error e
    | .ok idxs => processIndices df frame idxs

/-- `DataFrame.N`: number of rows. -/
def DataFrame.N (df : DataFrame) : Nat :=
  df.Data.length

/-- `DataFrame.NumVariables`: `len(df.Data[0])`; `none` models the panic
on an empty table. -/
def DataFrame.NumVariables (df : DataFrame) : Option Nat :=
  df.Data[0]?.map List.length

/-- The goroutine body of `DataFrame.GetChanFloat64`:
`for i := 0; i < df.N(); i++` extract row `i` and send it; an extraction
error aborts the producer (`glog.Fatalf`), modelled as the error outcome;
otherwise the channel delivers the rows in order and closes. -/
def chanLoopFrame (df : DataFrame) (vector : VectorSpec) (n : Nat) (i : Nat) :
    Except DFError (List (List ℚ)) :=
  if _ : i < n then
    match df.GetFrameFloat64 i vector with
    | .error e => .error e
    | .ok sl => (chanLoopFrame df vector n (i + 1)).map (sl :: ·)
  else
    .ok []
termination_by n - i

/-- `DataFrame.GetChanFloat64`: the full sequence the channel yields. -/
def DataFrame.GetChanFloat64 (df : DataFrame) (vector : VectorSpec) :
    Except DFError (List (List ℚ)) :=
  chanLoopFrame df vector df.N 0

/-- Go struct `DataSet` (`index` is the unexported cursor). -/
structure DataSet where
  Path : String
  Files : List String
  index : Nat
deriving DecidableEq, Repr

/-- `string(os.PathSeparator)`; the platform separator, a constant. -/
def pathSep : String := "/"

/-- Outcome of one `DataSet.Next` call: a frame, the `io.EOF` sentinel, a
returned load error, or a runtime panic (cursor beyond the file list). -/
inductive NextRes where
  | frame (df : DataFrame) : NextRes
  | eof : NextRes
  | err (e : String) : NextRes
  | panicked : NextRes

/-- `DataSet.Reset`. -/
def DataSet.Reset (ds : DataSet) : DataSet :=
  { ds with index := 0 }

/-- `DataSet.Next`.  `fs` models the file system plus JSON decode:
`ReadDataFrameFile` on a path either yields a frame or a read/decode
error.  At `index = len(Files)` the cursor resets and `io.EOF` is
signalled; on a load error the function returns before the increment, so
the cursor is unchanged. -/
def DataSet.Next (fs : String → Except String DataFrame) (ds : DataSet) :
    NextRes × DataSet :=
  if ds.index = ds.Files.length then
    (.eof, { ds with index := 0 })
  else
    match ds.Files[ds.index]? with
    | none => (.panicked, ds)
    | some f =>
      match fs (ds.Path ++ pathSep ++ f) with
      | .error e => (.err e, ds)
      | .ok df => (.frame df, { ds with index := ds.index + 1 })

/-- Repeated `Next` calls: the list of the `k` results together with the
final dataset state. -/
def runNext (fs : String → Except String DataFrame) (ds : DataSet) :
    Nat → List NextRes × DataSet
  | 0 => ([], ds)
  | k + 1 =>
    let (r, ds') := ds.Next fs
    let (rs, ds'') := runNext fs ds' k
    (r :: rs, ds'')

instance {ε α : Type} [DecidableEq ε] [DecidableEq α] : DecidableEq (Except ε α) := by
  intro x y
  cases x <;> cases y
  case error.error a b =>
    exact if h : a = b then .isTrue (by rw [h]) else .isFalse (fun he => by cases he; exact h rfl)
  case ok.ok a b =>
    exact if h : a = b then .isTrue (by rw [h]) else .isFalse (fun he => by cases he; exact h rfl)
  case error.ok a b => exact .isFalse (fun he => by cases he)
  case ok.error a b => exact .isFalse (fun he => by cases he)

/-! Concrete frames, datasets and helpers used by the theorems below. -/

/-- A frame used for the C6 counterexample. -/
def c6frame : DataFrame :=
  ⟨"", "", ["a"], ["float64"], [[Cell.num 1]], []⟩

/-- The frame of test file `file1.json` (rows as in the test data), with
the `var_types` of the package documentation's example; the
VectorSpec-based revision reads `VarTypes[idx]` unconditionally, so the
types must be present. -/
def c4frame : DataFrame :=
  ⟨"An indoor positioning data set.", "24001-015",
   ["room", "wifi", "acceleration"],
   ["string", "[]float64", "float64"],
   [[Cell.str "BED5", Cell.arr [Cell.num ((-408 : ℚ)/10), Cell.num ((-412 : ℚ)/10)],
     Cell.num ((13 : ℚ)/10)],
    [Cell.str "BED5", Cell.arr [Cell.num ((-418 : ℚ)/10), Cell.num ((-411 : ℚ)/10)],
     Cell.num ((14 : ℚ)/10)]],
   []⟩

/-- Index of the last occurrence of `s` in `l` (specification-side helper
for reasoning about `buildVarMap`). -/
def lastIdx? : List String → String → Option Nat
  | [], _ => none
  | v :: rest, s =>
    match lastIdx? rest s with
    | some i => some (i + 1)
    | none => if s = v then some 0 else none

def c3df1 : DataFrame := ⟨"", "1", ["a"], ["float64"], [[Cell.num 1]], []⟩

def c3df2 : DataFrame := ⟨"", "2", ["a"], ["float64"], [[Cell.num 2]], []⟩

def c3fs : String → Except String DataFrame := fun p =>
  if p = "data/file1.json" then .ok c3df1
  else if p = "data/file2.json" then .ok c3df2
  else .error "open: no such file or directory"

def c2frame : DataFrame :=
  ⟨"", "", ["x", "y"], ["float64", "float64"],
   [[Cell.num 1, Cell.num 2], [Cell.num 3, Cell.num 4]], []⟩

def c2out : Nat → List ℚ := fun i => if i = 0 then [1, 2] else [3, 4]

/-- Recognizer for the `UnsupportedVariableType` returned-error outcome
(used to state the C7 counterexample). -/
def isUnsupportedErr : Except DFError (List ℚ) → Bool
  | .error (.unsupportedType _ _) => true
  | _ => false

def c7frame : DataFrame :=
  ⟨"", "", ["n", "w", "s"], ["float64", "[]float64", "string"],
   [[Cell.null, Cell.arr [Cell.num 1, Cell.num 2], Cell.str "x"]], []⟩

/-! ## C9: column count -/

/-- C9: `NumVariables` returns the number of cells in row 0 whenever the
frame has at least one row, and on a zero-row frame the unguarded
`df.Data[0]` is outside its precondition: the operation yields no value
(the modelled panic) rather than returning one. -/
theorem numVariables_spec (df : DataFrame) :
    (∀ row rest, df.Data = row :: rest → df.NumVariables = some row.length) ∧
    (df.Data = [] → df.NumVariables = none) := by
  constructor
  · intro row rest h
    simp [DataFrame.NumVariables, h]
  · intro h
    simp [DataFrame.NumVariables, h]

theorem numVariables_spec_witness :
    DataFrame.NumVariables ⟨"", "", ["a"], ["float64"], [[Cell.num 1, Cell.num 2]], []⟩
        = some 2 ∧
    DataFrame.NumVariables ⟨"", "", ["a"], ["float64"], [], []⟩ = none := by
  constructor
  · exact (numVariables_spec ⟨"", "", ["a"], ["float64"], [[Cell.num 1, Cell.num 2]], []⟩).1
      [Cell.num 1, Cell.num 2] [] rfl
  · exact (numVariables_spec ⟨"", "", ["a"], ["float64"], [], []⟩).2 rfl

/-! ## C6: empty vector spec -/

/-- C6 counterexample: with an empty but non-nil `VarNames` (Go
`[]string\x7b\x7d`), extraction does NOT fail with the EmptySpec error: it
succeeds and returns the empty vector.  Only a nil `VarNames` triggers
the error, because the Go guard is `vector.VarNames == nil`. -/
theorem getFrameFloat64_empty_nonNil_ok :
    c6frame.GetFrameFloat64 0 ⟨"float64", some []⟩ = .ok [] := rfl

/-- C6 amended: extraction with a nil (absent) `VarNames` fails with the
EmptySpec error for every frame and row, regardless of the frame's
content; an empty non-nil `VarNames` instead succeeds with the empty
vector for every frame and row. -/
theorem getFrameFloat64_nil_varNames (df : DataFrame) (frame : Nat) (ty : String) :
    df.GetFrameFloat64 frame ⟨ty, none⟩ = .error .emptyVarNames ∧
    df.GetFrameFloat64 frame ⟨ty, some []⟩ = .ok [] := by
  exact ⟨rfl, rfl⟩

/-! ## C4: concrete extraction scenario -/

/-- C4: on the frame with `var_names = ["room","wifi","acceleration"]`
whose row 1 is `["BED5", [-41.8,-41.1], 1.4]`, extraction at row 1 with
the spec naming `wifi` then `acceleration` succeeds and yields exactly
`[-41.8, -41.1, 1.4]`. -/
theorem getFrameFloat64_scenario :
    c4frame.GetFrameFloat64 1 ⟨"[]float64", some ["wifi", "acceleration"]⟩
      = .ok [(-418 : ℚ)/10, (-411 : ℚ)/10, (14 : ℚ)/10] := rfl

/-! ## C8: last-wins duplicate handling in the var map -/

theorem buildVarMapGo_eq (l : List String) (k : Nat) (m : String → Option Nat)
    (s : String) :
    buildVarMapGo l k m s =
      match lastIdx? l s with
      | some i => some (k + i)
      | none => m s := by
  induction l generalizing k m with
  | nil => rfl
  | cons v rest ih =>
    show buildVarMapGo rest (k + 1) _ s = _
    rw [ih]
    simp only [lastIdx?]
    cases h : lastIdx? rest s with
    | some i =>
      simp only []
      congr 1
      omega
    | none =>
      simp only []
      by_cases hv : s = v <;> simp [hv]

theorem lastIdx?_isSome (l : List String) (s : String) (h : s ∈ l) :
    ∃ i, lastIdx? l s = some i := by
  induction l with
  | nil => cases h
  | cons v rest ih =>
    cases h' : lastIdx? rest s with
    | some i => exact ⟨i + 1, by simp only [lastIdx?, h']⟩
    | none =>
      rcases List.mem_cons.mp h with h1 | h2
      · refine ⟨0, ?_⟩
        simp only [lastIdx?, h']
        simp [h1]
      · rcases ih h2 with ⟨i, hi⟩
        rw [hi] at h'
        cases h'

theorem lastIdx?_spec (l : List String) (s : String) (i : Nat)
    (h : lastIdx? l s = some i) :
    l[i]? = some s ∧ ∀ j, i < j → l[j]? ≠ some s := by
  induction l generalizing i with
  | nil => cases h
  | cons v rest ih =>
    cases h' : lastIdx? rest s with
    | some i' =>
      rw [lastIdx?, h'] at h
      cases h
      rcases ih i' h' with ⟨h1, h2⟩
      refine ⟨by simpa using h1, ?_⟩
      intro j hj
      cases j with
      | zero => omega
      | succ j' =>
        simpa using h2 j' (by omega)
    | none =>
      rw [lastIdx?, h'] at h
      by_cases hv : s = v
      · simp only [hv, if_pos rfl] at h
        cases h
        refine ⟨by simp [hv], ?_⟩
        intro j hj hcontra
        cases j with
        | zero => omega
        | succ j' =>
          simp only [List.getElem?_cons_succ] at hcontra
          have hmem : s ∈ rest := List.getElem?_mem hcontra
          rcases lastIdx?_isSome rest s hmem with ⟨w, hw⟩
          rw [hw] at h'
          cases h'
      · simp [hv] at h

/-- C8: resolving a name through the map built from `var_names` yields the
largest position at which the name occurs in `var_names` (last-wins on
duplicate names); the map construction is total, so nothing fails at load
time. -/
theorem buildVarMap_lastWins (names : List String) (name : String)
    (h : name ∈ names) :
    ∃ i, buildVarMap names name = some i ∧ names[i]? = some name ∧
      ∀ j, names[j]? = some name → j ≤ i := by
  rcases lastIdx?_isSome names name h with ⟨i, hi⟩
  rcases lastIdx?_spec names name i hi with ⟨h1, h2⟩
  refine ⟨i, ?_, h1, ?_⟩
  · rw [buildVarMap, buildVarMapGo_eq, hi]
    simp
  · intro j hj
    by_contra hgt
    exact h2 j (by omega) hj

theorem buildVarMap_lastWins_witness :
    "a" ∈ ["a", "b", "a"] ∧ buildVarMap ["a", "b", "a"] "a" = some 2 ∧
      (∃ i, buildVarMap ["a", "b", "a"] "a" = some i ∧
        ["a", "b", "a"][i]? = some "a" ∧
        ∀ j, ["a", "b", "a"][j]? = some "a" → j ≤ i) := by
  exact ⟨by decide, by decide, buildVarMap_lastWins ["a", "b", "a"] "a" (by decide)⟩

/-! ## C3 and C10: DataSet cursor semantics -/

theorem dataSet_next_ok (fs : String → Except String DataFrame) (P : String)
    (files : List String) (j : Nat) (hjl : j < files.length) (df : DataFrame)
    (hload : fs (P ++ pathSep ++ files.get ⟨j, hjl⟩) = .ok df) :
    DataSet.Next fs ⟨P, files, j⟩ = (.frame df, ⟨P, files, j + 1⟩) := by
  have hne : j ≠ files.length := by omega
  simp only [DataSet.Next, hne, if_false, List.getElem?_eq_getElem hjl]
  rw [show files[j] = files.get ⟨j, hjl⟩ from rfl, hload]

theorem runNext_ok_aux (fs : String → Except String DataFrame) (P : String)
    (files : List String) (dfs : List DataFrame)
    (hlen : dfs.length = files.length)
    (hload : ∀ i (h : i < files.length),
      fs (P ++ pathSep ++ files.get ⟨i, h⟩) = .ok (dfs.get ⟨i, hlen ▸ h⟩)) :
    ∀ k j, j + k = files.length →
      runNext fs ⟨P, files, j⟩ k =
        ((dfs.drop j).map NextRes.frame, ⟨P, files, files.length⟩) := by
  intro k
  induction k with
  | zero =>
    intro j hj
    have hdrop : dfs.drop j = [] := by
      apply List.drop_eq_nil_of_le
      omega
    have hj' : j = files.length := by omega
    subst hj'
    simp [runNext, hdrop]
  | succ k ih =>
    intro j hj
    have hjl : j < files.length := by omega
    have hnext := dataSet_next_ok fs P files j hjl (dfs.get ⟨j, hlen ▸ hjl⟩)
      (hload j hjl)
    have hjd : j < dfs.length := by omega
    have hdrop : dfs.drop j = dfs.get ⟨j, hjd⟩ :: dfs.drop (j + 1) := by
      rw [List.drop_eq_getElem_cons hjd]
      rfl
    simp only [runNext, hnext, ih (j + 1) (by omega), hdrop, List.map_cons]

/-- C3: starting from cursor 0 with `n` files that all load successfully,
`n` calls of `Next` return the `n` frames in file-list order; the
`(n+1)`-th call returns the `io.EOF` sentinel (a `NextRes` constructor
distinct from the error one) and resets the cursor to 0; a further call
then loads file 0 again. -/
theorem dataSet_next_exhaustion (fs : String → Except String DataFrame)
    (P : String) (files : List String) (dfs : List DataFrame)
    (hlen : dfs.length = files.length)
    (hload : ∀ i (h : i < files.length),
      fs (P ++ pathSep ++ files.get ⟨i, h⟩) = .ok (dfs.get ⟨i, hlen ▸ h⟩)) :
    runNext fs ⟨P, files, 0⟩ files.length
        = (dfs.map NextRes.frame, ⟨P, files, files.length⟩) ∧
    DataSet.Next fs ⟨P, files, files.length⟩ = (.eof, ⟨P, files, 0⟩) ∧
    ∀ h0 : 0 < files.length,
      DataSet.Next fs ⟨P, files, 0⟩
        = (.frame (dfs.get ⟨0, hlen ▸ h0⟩), ⟨P, files, 1⟩) := by
  refine ⟨?_, ?_, ?_⟩
  · have := runNext_ok_aux fs P files dfs hlen hload files.length 0 (by omega)
    simpa using this
  · simp [DataSet.Next]
  · intro h0
    exact dataSet_next_ok fs P files 0 h0 (dfs.get ⟨0, hlen ▸ h0⟩) (hload 0 h0)

theorem dataSet_next_exhaustion_witness :
    runNext c3fs ⟨"data", ["file1.json", "file2.json"], 0⟩ 2
        = ([c3df1, c3df2].map NextRes.frame, ⟨"data", ["file1.json", "file2.json"], 2⟩) ∧
    DataSet.Next c3fs ⟨"data", ["file1.json", "file2.json"], 2⟩
        = (.eof, ⟨"data", ["file1.json", "file2.json"], 0⟩) ∧
    DataSet.Next c3fs ⟨"data", ["file1.json", "file2.json"], 0⟩
        = (.frame c3df1, ⟨"data", ["file1.json", "file2.json"], 1⟩) := by
  have h := dataSet_next_exhaustion c3fs "data" ["file1.json", "file2.json"]
    [c3df1, c3df2] rfl ?_
  · exact ⟨h.1, h.2.1, h.2.2 (by decide)⟩
  · intro i hi
    match i, hi with
    | 0, _ => rfl
    | 1, _ => rfl

/-- C10: when loading the current file fails, `Next` returns the error and
leaves the dataset state (in particular the cursor) unchanged, so a
subsequent `Next` call retries the very same file. -/
theorem dataSet_next_error_preserves_cursor (fs : String → Except String DataFrame)
    (ds : DataSet) (e : String) (hlt : ds.index < ds.Files.length)
    (herr : fs (ds.Path ++ pathSep ++ ds.Files.get ⟨ds.index, hlt⟩) = .error e) :
    ds.Next fs = (.err e, ds) := by
  have hne : ds.index ≠ ds.Files.length := by omega
  simp only [DataSet.Next, hne, if_false, List.getElem?_eq_getElem hlt]
  rw [show ds.Files[ds.index] = ds.Files.get ⟨ds.index, hlt⟩ from rfl, herr]

theorem dataSet_next_error_preserves_cursor_witness :
    (0 : Nat) < 1 ∧
      DataSet.Next (fun _ => .error "decode failed") ⟨"data", ["bad.json"], 0⟩
        = (.err "decode failed", ⟨"data", ["bad.json"], 0⟩) := by
  exact ⟨by omega,
    dataSet_next_error_preserves_cursor (fun _ => .error "decode failed")
      ⟨"data", ["bad.json"], 0⟩ "decode failed" (by simp) rfl⟩

/-! ## C2: frame channel stream equivalence -/

theorem chanLoopFrame_ok (df : DataFrame) (vector : VectorSpec) (out : Nat → List ℚ)
    (n : Nat) (h : ∀ i, i < n → df.GetFrameFloat64 i vector = .ok (out i)) :
    ∀ i, chanLoopFrame df vector n i = .ok ((List.range' i (n - i)).map out) := by
  suffices H : ∀ k i, n - i = k →
      chanLoopFrame df vector n i = .ok ((List.range' i k).map out) by
    intro i
    exact H (n - i) i rfl
  intro k
  induction k with
  | zero =>
    intro i hk
    have hni : ¬ i < n := by omega
    rw [chanLoopFrame]
    simp [hni]
  | succ k ih =>
    intro i hk
    have hi : i < n := by omega
    rw [chanLoopFrame]
    simp only [hi, dite_true, h i hi, ih (i + 1) (by omega), List.range'_succ,
      List.map_cons, Except.map]

/-- C2: when per-row extraction succeeds on every row, the sequence the
channel of `GetChanFloat64` yields is exactly
`[GetFrameFloat64 df i spec | i = 0 .. N-1]`, in row order, and then the
channel closes. -/
theorem getChanFloat64_stream_eq (df : DataFrame) (vector : VectorSpec)
    (out : Nat → List ℚ)
    (h : ∀ i, i < df.N → df.GetFrameFloat64 i vector = .ok (out i)) :
    df.GetChanFloat64 vector = .ok ((List.range df.N).map out) := by
  rw [DataFrame.GetChanFloat64, List.range_eq_range']
  simpa using chanLoopFrame_ok df vector out df.N h 0

theorem getChanFloat64_stream_eq_witness :
    (∀ i, i < c2frame.N →
      c2frame.GetFrameFloat64 i ⟨"float64", some ["x", "y"]⟩ = .ok (c2out i)) ∧
    c2frame.GetChanFloat64 ⟨"float64", some ["x", "y"]⟩
      = .ok ((List.range c2frame.N).map c2out) := by
  have h : ∀ i, i < c2frame.N →
      c2frame.GetFrameFloat64 i ⟨"float64", some ["x", "y"]⟩ = .ok (c2out i) := by
    intro i hi
    match i, hi with
    | 0, _ => rfl
    | 1, _ => rfl
    | n + 2, hcontra => exact absurd hcontra (by simp [c2frame, DataFrame.N])
  exact ⟨h, getChanFloat64_stream_eq c2frame ⟨"float64", some ["x", "y"]⟩ c2out h⟩

/-! ## C1: homogeneity failure is independent of row data -/

theorem string_ne_empty_length_pos (s : String) (h : s ≠ "") : 0 < s.length := by
  cases s with
  | mk data =>
    cases data with
    | nil => exact absurd rfl h
    | cons c cs => simp [String.length]

theorem getD_of_getElem? {α : Type} (l : List α) (i : Nat) (x d : α)
    (h : l[i]? = some x) : l.getD i d = x := by
  simp [List.getD, h]

theorem indicesGo_ok_or_invalid (vm : String → Option Nat) (types : List String)
    (names : List String) (s : String)
    (hres : ∀ v ∈ names, ∃ i, vm v = some i ∧ i < types.length) :
    indicesGo vm types names s = .error .invalidVectorSpec ∨
      ∃ l, indicesGo vm types names s = .ok l := by
  induction names generalizing s with
  | nil => exact Or.inr ⟨[], rfl⟩
  | cons v rest ih =>
    rcases hres v (List.mem_cons_self v rest) with ⟨i, hvm, hlt⟩
    have hty : types[i]? = some types[i] := List.getElem?_eq_getElem hlt
    rcases ih (elemType types[i]) (fun w hw => hres w (List.mem_cons_of_mem v hw)) with
      hrec | ⟨l, hrec⟩
    · by_cases hcond : 0 < s.length ∧ s ≠ elemType types[i]
      · left
        simp [indicesGo, hvm, hty, hcond]
      · left
        simp [indicesGo, hvm, hty, hcond, hrec, Except.map]
    · by_cases hcond : 0 < s.length ∧ s ≠ elemType types[i]
      · left
        simp [indicesGo, hvm, hty, hcond]
      · right
        exact ⟨i :: l, by simp [indicesGo, hvm, hty, hcond, hrec, Except.map]⟩

theorem indicesGo_ok_all_eq (vm : String → Option Nat) (types : List String)
    (names : List String) (s : String) (l : List Nat)
    (hok : indicesGo vm types names s = .ok l) (hs : s ≠ "") :
    ∀ v ∈ names, ∀ i, vm v = some i → elemType (types.getD i "") = s := by
  induction names generalizing s l with
  | nil => intro v hv; cases hv
  | cons v rest ih =>
    intro w hw i hwi
    cases hvm : vm v with
    | none => simp [indicesGo, hvm] at hok
    | some idx =>
      cases hty : types[idx]? with
      | none => simp [indicesGo, hvm, hty] at hok
      | some t =>
        by_cases hcond : 0 < s.length ∧ s ≠ elemType t
        · simp [indicesGo, hvm, hty, hcond] at hok
        · have hseq : s = elemType t := by
            rcases not_and_or.mp hcond with h1 | h2
            · exact absurd (string_ne_empty_length_pos s hs) h1
            · exact not_not.mp h2
          cases hrec : indicesGo vm types rest (elemType t) with
          | error e => simp [indicesGo, hvm, hty, hcond, hrec, Except.map] at hok
          | ok l' =>
            rcases List.mem_cons.mp hw with hwv | hwrest
            · subst hwv
              rw [hvm] at hwi
              cases hwi
              rw [getD_of_getElem? types i t "" hty]
              exact hseq.symm
            · rw [hseq]
              exact ih (elemType t) l' hrec (hseq ▸ hs) w hwrest i hwi

theorem indicesGo_ok_all_eq_start (vm : String → Option Nat) (types : List String)
    (names : List String) (l : List Nat)
    (hok : indicesGo vm types names "" = .ok l)
    (hne : ∀ v ∈ names, ∀ i, vm v = some i → elemType (types.getD i "") ≠ "") :
    ∀ a ∈ names, ∀ b ∈ names, ∀ ia ib, vm a = some ia → vm b = some ib →
      elemType (types.getD ia "") = elemType (types.getD ib "") := by
  cases names with
  | nil => intro a ha; cases ha
  | cons v rest =>
    intro a ha b hb ia ib hia hib
    cases hvm : vm v with
    | none => simp [indicesGo, hvm] at hok
    | some idx =>
      cases hty : types[idx]? with
      | none => simp [indicesGo, hvm, hty] at hok
      | some t =>
        have hcond : ¬ (0 < ("" : String).length ∧ ("" : String) ≠ elemType t) := by
          simp
        cases hrec : indicesGo vm types rest (elemType t) with
        | error e => simp [indicesGo, hvm, hty, hcond, hrec, Except.map] at hok
        | ok l' =>
          have htidx : types.getD idx "" = t := getD_of_getElem? types idx t "" hty
          have htne : elemType t ≠ "" := by
            have := hne v (List.mem_cons_self v rest) idx hvm
            rwa [htidx] at this
          have hall : ∀ w ∈ v :: rest, ∀ i, vm w = some i →
              elemType (types.getD i "") = elemType t := by
            intro w hw i hwi
            rcases List.mem_cons.mp hw with hwv | hwrest
            · subst hwv
              rw [hvm] at hwi
              cases hwi
              rw [htidx]
            · exact indicesGo_ok_all_eq vm types rest (elemType t) l' hrec htne
                w hwrest i hwi
          rw [hall a ha ia hia, hall b hb ib hib]

/-- C1 counterexample: a frame whose two referenced columns have differing
element types after stripping the array marker (`""` from `"[]"` versus
`"float64"`), yet index resolution succeeds instead of failing with
`InvalidVectorSpec`, because the running-type check skips a column whose
element type is the empty string. -/
theorem indices_mixed_types_ok :
    DataFrame.indices ⟨"", "", ["a", "b"], ["[]", "float64"], [[Cell.num 1, Cell.num 2]], []⟩
        ⟨"float64", some ["a", "b"]⟩ = .ok [0, 1] ∧
      elemType "[]" ≠ elemType "float64" := by
  exact ⟨rfl, by decide⟩

/-- C1 amended: provided every referenced column resolves, carries a
var-type entry, and has a NONEMPTY stripped element type, a spec whose
referenced columns have differing element types makes index resolution
fail with `InvalidVectorSpec`; moreover extraction then fails with that
same error for every row index and every data matrix, since resolution
reads only `var_names`, `var_types` and the spec. -/
theorem indices_mixed_types_fails (df : DataFrame) (vector : VectorSpec)
    (names : List String) (hnames : vector.VarNames = some names)
    (hres : ∀ v ∈ names, ∃ i, buildVarMap df.VarNames v = some i ∧
      i < df.VarTypes.length)
    (hne : ∀ v ∈ names, ∀ i, buildVarMap df.VarNames v = some i →
      elemType (df.VarTypes.getD i "") ≠ "")
    (a b : String) (ia ib : Nat) (ha : a ∈ names) (hb : b ∈ names)
    (hia : buildVarMap df.VarNames a = some ia)
    (hib : buildVarMap df.VarNames b = some ib)
    (hdiff : elemType (df.VarTypes.getD ia "") ≠ elemType (df.VarTypes.getD ib "")) :
    df.indices vector = .error .invalidVectorSpec ∧
    ∀ d frame,
      DataFrame.GetFrameFloat64
        ⟨df.Description, df.BatchID, df.VarNames, df.VarTypes, d, df.Properties⟩
        frame vector = .error .invalidVectorSpec := by
  have hind : df.indices vector = .error .invalidVectorSpec := by
    rcases indicesGo_ok_or_invalid (buildVarMap df.VarNames) df.VarTypes names "" hres with
      herr | ⟨l, hok⟩
    · rw [DataFrame.indices, hnames]
      exact herr
    · exact absurd
        (indicesGo_ok_all_eq_start (buildVarMap df.VarNames) df.VarTypes names l hok hne
          a ha b hb ia ib hia hib) hdiff
  refine ⟨hind, ?_⟩
  intro d frame
  have hind' :
      DataFrame.indices
        ⟨df.Description, df.BatchID, df.VarNames, df.VarTypes, d, df.Properties⟩
        vector = .error .invalidVectorSpec := hind
  rw [DataFrame.GetFrameFloat64, hnames]
  rw [hind']

theorem indices_mixed_types_fails_witness :
    DataFrame.indices
        ⟨"", "", ["p", "q"], ["string", "float64"], [[Cell.num 5, Cell.num 6]], []⟩
        ⟨"float64", some ["p", "q"]⟩ = .error .invalidVectorSpec ∧
    DataFrame.GetFrameFloat64
        ⟨"", "", ["p", "q"], ["string", "float64"], [], []⟩ 7
        ⟨"float64", some ["p", "q"]⟩ = .error .invalidVectorSpec := by
  have h := indices_mixed_types_fails
    ⟨"", "", ["p", "q"], ["string", "float64"], [[Cell.num 5, Cell.num 6]], []⟩
    ⟨"float64", some ["p", "q"]⟩ ["p", "q"] rfl ?_ ?_ "p" "q" 0 1
    (by decide) (by decide) (by decide) (by decide) (by decide)
  · exact ⟨h.1, h.2 [] 7⟩
  · intro v hv
    rcases List.mem_cons.mp hv with h1 | h2
    · exact ⟨0, by subst h1; exact ⟨by decide, by decide⟩⟩
    · rcases List.mem_singleton.mp h2 with h1
      exact ⟨1, by subst h1; exact ⟨by decide, by decide⟩⟩
  · intro v hv i hvi
    rcases List.mem_cons.mp hv with h1 | h2
    · subst h1
      rw [show buildVarMap ["p", "q"] "p" = some 0 from by decide] at hvi
      cases hvi
      decide
    · rcases List.mem_singleton.mp h2 with h1
      subst h1
      rw [show buildVarMap ["p", "q"] "q" = some 1 from by decide] at hvi
      cases hvi
      decide

/-! ## C5: concatenation order -/

theorem indicesGo_pair (vm : String → Option Nat) (types : List String)
    (a b : String) (l : List Nat)
    (hok : indicesGo vm types [a, b] "" = .ok l) :
    ∃ ia ib, vm a = some ia ∧ vm b = some ib ∧ l = [ia, ib] ∧
      indicesGo vm types [a] "" = .ok [ia] ∧
      indicesGo vm types [b] "" = .ok [ib] := by
  cases hva : vm a with
  | none => simp [indicesGo, hva] at hok
  | some ia =>
    cases hta : types[ia]? with
    | none => simp [indicesGo, hva, hta] at hok
    | some ta =>
      cases hvb : vm b with
      | none => simp [indicesGo, hva, hta, hvb, Except.map] at hok
      | some ib =>
        cases htb : types[ib]? with
        | none => simp [indicesGo, hva, hta, hvb, htb, Except.map] at hok
        | some tb =>
          by_cases hcond : 0 < (elemType ta).length ∧ elemType ta ≠ elemType tb
          · simp [indicesGo, hva, hta, hvb, htb, hcond, Except.map] at hok
          · refine ⟨ia, ib, rfl, rfl, ?_, ?_, ?_⟩
            · simp [indicesGo, hva, hta, hvb, htb, hcond, Except.map] at hok
              exact hok.symm
            · simp [indicesGo, hva, hta, Except.map]
            · simp [indicesGo, hvb, htb, Except.map]

theorem processIndices_pair (df : DataFrame) (frame : Nat) (ia ib : Nat) (v : List ℚ)
    (hok : processIndices df frame [ia, ib] = .ok v) :
    ∃ fa fb, processIndices df frame [ia] = .ok fa ∧
      processIndices df frame [ib] = .ok fb ∧ v = fa ++ fb := by
  cases hrow : df.Data[frame]? with
  | none => simp [processIndices, hrow] at hok
  | some row =>
    cases hca : row[ia]? with
    | none => simp [processIndices, hrow, hca] at hok
    | some ca =>
      cases hcf : cellFloats frame ia ca with
      | error e => simp [processIndices, hrow, hca, hcf] at hok
      | ok fa =>
        cases hcb : row[ib]? with
        | none => simp [processIndices, hrow, hca, hcf, hcb, Except.map] at hok
        | some cb =>
          cases hcg : cellFloats frame ib cb with
          | error e => simp [processIndices, hrow, hca, hcf, hcb, hcg, Except.map] at hok
          | ok fb =>
            refine ⟨fa, fb, ?_, ?_, ?_⟩
            · simp [processIndices, hrow, hca, hcf, Except.map]
            · simp [processIndices, hrow, hcb, hcg, Except.map]
            · simp [processIndices, hrow, hca, hcf, hcb, hcg, Except.map] at hok
              exact hok.symm

/-- C5: whenever extraction for the two-column spec `[a, b]` succeeds, the
single-column extractions for `[a]` and `[b]` succeed as well and the
two-column result is exactly their concatenation, in spec order. -/
theorem getFrameFloat64_concat (df : DataFrame) (frame : Nat) (ty a b : String)
    (v : List ℚ)
    (h : df.GetFrameFloat64 frame ⟨ty, some [a, b]⟩ = .ok v) :
    ∃ va vb, df.GetFrameFloat64 frame ⟨ty, some [a]⟩ = .ok va ∧
      df.GetFrameFloat64 frame ⟨ty, some [b]⟩ = .ok vb ∧ v = va ++ vb := by
  rw [show df.GetFrameFloat64 frame ⟨ty, some [a, b]⟩
      = (match df.indices ⟨ty, some [a, b]⟩ with
         | .error e => .error e
         | .ok idxs => processIndices df frame idxs) from rfl] at h
  cases hind : df.indices ⟨ty, some [a, b]⟩ with
  | error e => rw [hind] at h; cases h
  | ok l =>
    rw [hind] at h
    have hok : indicesGo (buildVarMap df.VarNames) df.VarTypes [a, b] "" = .ok l := hind
    rcases indicesGo_pair (buildVarMap df.VarNames) df.VarTypes a b l hok with
      ⟨ia, ib, hva, hvb, hl, hsa, hsb⟩
    subst hl
    rcases processIndices_pair df frame ia ib v h with ⟨fa, fb, hfa, hfb, hv⟩
    refine ⟨fa, fb, ?_, ?_, hv⟩
    · rw [show df.GetFrameFloat64 frame ⟨ty, some [a]⟩
          = (match df.indices ⟨ty, some [a]⟩ with
             | .error e => .error e
             | .ok idxs => processIndices df frame idxs) from rfl]
      rw [show df.indices ⟨ty, some [a]⟩ = .ok [ia] from hsa]
      exact hfa
    · rw [show df.GetFrameFloat64 frame ⟨ty, some [b]⟩
          = (match df.indices ⟨ty, some [b]⟩ with
             | .error e => .error e
             | .ok idxs => processIndices df frame idxs) from rfl]
      rw [show df.indices ⟨ty, some [b]⟩ = .ok [ib] from hsb]
      exact hfb

theorem getFrameFloat64_concat_witness :
    c4frame.GetFrameFloat64 1 ⟨"[]float64", some ["wifi", "acceleration"]⟩
        = .ok [(-418 : ℚ)/10, (-411 : ℚ)/10, (14 : ℚ)/10] ∧
    ∃ va vb, c4frame.GetFrameFloat64 1 ⟨"[]float64", some ["wifi"]⟩ = .ok va ∧
      c4frame.GetFrameFloat64 1 ⟨"[]float64", some ["acceleration"]⟩ = .ok vb ∧
      ([(-418 : ℚ)/10, (-411 : ℚ)/10, (14 : ℚ)/10] : List ℚ) = va ++ vb := by
  refine ⟨rfl, ?_⟩
  exact getFrameFloat64_concat c4frame 1 "[]float64" "wifi" "acceleration"
    [(-418 : ℚ)/10, (-411 : ℚ)/10, (14 : ℚ)/10] rfl

/-! ## C7: per-cell behavior during extraction -/

theorem arrFloats_map_num (xs : List ℚ) : arrFloats (xs.map Cell.num) = .ok xs := by
  induction xs with
  | nil => rfl
  | cons x rest ih => simp [arrFloats, ih, Except.map]

theorem getFrameFloat64_single (df : DataFrame) (frame : Nat) (ty a : String)
    (v : Nat) (row : List Cell) (c : Cell)
    (hres : buildVarMap df.VarNames a = some v)
    (hty : v < df.VarTypes.length)
    (hrow : df.Data[frame]? = some row)
    (hcell : row[v]? = some c) :
    df.GetFrameFloat64 frame ⟨ty, some [a]⟩ =
      match cellFloats frame v c with
      | .error e => .error e
      | .ok fs => .ok (fs ++ []) := by
  have htyv : df.VarTypes[v]? = some df.VarTypes[v] := List.getElem?_eq_getElem hty
  have hind : df.indices ⟨ty, some [a]⟩ = .ok [v] := by
    show indicesGo (buildVarMap df.VarNames) df.VarTypes [a] "" = .ok [v]
    simp [indicesGo, hres, htyv, Except.map]
  rw [show df.GetFrameFloat64 frame ⟨ty, some [a]⟩
      = (match df.indices ⟨ty, some [a]⟩ with
         | .error e => .error e
         | .ok idxs => processIndices df frame idxs) from rfl]
  rw [hind]
  show (match df.Data[frame]? with
        | none => _
        | some row => _) = _
  rw [hrow]
  show (match row[v]? with | none => _ | some cell => _) = _
  rw [hcell]
  show (match cellFloats frame v c with
        | Except.error e => (Except.error e : Except DFError (List ℚ))
        | Except.ok fs => (processIndices df frame []).map (fs ++ ·)) =
      match cellFloats frame v c with
      | Except.error e => Except.error e
      | Except.ok fs => Except.ok (fs ++ [])
  cases hc : cellFloats frame v c with
  | error e => rfl
  | ok fs => rfl

/-- C7 counterexample: an array cell containing a non-numeric element is
"a cell of any other shape" (it is not a numeric array), yet extraction
does not fail with `UnsupportedVariableType`: the element type assertion
`v.(float64)` panics, i.e. the process crashes. -/
theorem getFrameFloat64_array_nonnum_panics :
    DataFrame.GetFrameFloat64
        ⟨"", "", ["w"], ["[]float64"], [[Cell.arr [Cell.str "oops"]]], []⟩
        0 ⟨"[]float64", some ["w"]⟩
      = .error (.goPanic "interface conversion: interface is not float64") ∧
    isUnsupportedErr
      (DataFrame.GetFrameFloat64
        ⟨"", "", ["w"], ["[]float64"], [[Cell.arr [Cell.str "oops"]]], []⟩
        0 ⟨"[]float64", some ["w"]⟩) = false := by
  exact ⟨rfl, rfl⟩

/-- C7 amended: for a resolved cell of a single-column spec — a null cell
fails with `NullVariable` naming the resolved position; a scalar numeric
cell contributes exactly one element; an all-numeric array cell
contributes its elements in array order; a NON-ARRAY cell of any other
shape (string, bool) fails with the returned error
`UnsupportedVariableType` naming the row and the Go type name — while an
array cell with a non-numeric element crashes with a runtime panic
instead (see the counterexample). -/
theorem getFrameFloat64_cell_behavior (df : DataFrame) (frame : Nat) (ty a : String)
    (v : Nat) (row : List Cell) (c : Cell)
    (hres : buildVarMap df.VarNames a = some v)
    (hty : v < df.VarTypes.length)
    (hrow : df.Data[frame]? = some row)
    (hcell : row[v]? = some c) :
    (c = .null →
      df.GetFrameFloat64 frame ⟨ty, some [a]⟩ = .error (.nullVariable v)) ∧
    (∀ x, c = .num x →
      df.GetFrameFloat64 frame ⟨ty, some [a]⟩ = .ok [x]) ∧
    (∀ xs, c = .arr (xs.map Cell.num) →
      df.GetFrameFloat64 frame ⟨ty, some [a]⟩ = .ok xs) ∧
    (∀ s, c = .str s →
      df.GetFrameFloat64 frame ⟨ty, some [a]⟩
        = .error (.unsupportedType frame "string")) ∧
    (∀ bl, c = .boolean bl →
      df.GetFrameFloat64 frame ⟨ty, some [a]⟩
        = .error (.unsupportedType frame "bool")) := by
  have hmain := getFrameFloat64_single df frame ty a v row c hres hty hrow hcell
  refine ⟨?_, ?_, ?_, ?_, ?_⟩
  · intro hc
    subst hc
    rw [hmain]
    rfl
  · intro x hc
    subst hc
    rw [hmain]
    rfl
  · intro xs hc
    subst hc
    rw [hmain]
    simp [cellFloats, arrFloats_map_num]
  · intro s hc
    subst hc
    rw [hmain]
    rfl
  · intro bl hc
    subst hc
    rw [hmain]
    rfl

theorem getFrameFloat64_cell_behavior_witness :
    c7frame.GetFrameFloat64 0 ⟨"float64", some ["n"]⟩
        = .error (.nullVariable 0) ∧
    c7frame.GetFrameFloat64 0 ⟨"[]float64", some ["w"]⟩ = .ok [1, 2] ∧
    c7frame.GetFrameFloat64 0 ⟨"string", some ["s"]⟩
        = .error (.unsupportedType 0 "string") := by
  refine ⟨?_, ?_, ?_⟩
  · exact (getFrameFloat64_cell_behavior c7frame 0 "float64" "n" 0
      [Cell.null, Cell.arr [Cell.num 1, Cell.num 2], Cell.str "x"] Cell.null
      (by decide) (by decide) rfl rfl).1 rfl
  · exact (getFrameFloat64_cell_behavior c7frame 0 "[]float64" "w" 1
      [Cell.null, Cell.arr [Cell.num 1, Cell.num 2], Cell.str "x"]
      (Cell.arr [Cell.num 1, Cell.num 2])
      (by decide) (by decide) rfl rfl).2.2.1 [1, 2] rfl
  · exact (getFrameFloat64_cell_behavior c7frame 0 "string" "s" 2
      [Cell.null, Cell.arr [Cell.num 1, Cell.num 2], Cell.str "x"] (Cell.str "x")
      (by decide) (by decide) rfl rfl).2.2.2.1 "x" rfl
